import Mathlib

/-!
Verification of the voice-notes recording/processing core (src/index.tsx).

The TypeScript source is shallowly embedded: DOM state that the core logic
reads and writes (editor title, transcription panes, status line) is carried
in an explicit `AppState`; the recorder/stream lifecycle is an explicit
`RecState` with an event trace; the two remote calls are parameters holding
the service response (`none` models a thrown transport error, `some ""` an
empty response, mirroring JS truthiness on `response.text`).

JS string primitives (`trim`, `split('\n')`, `substring`, the two regex
replaces) are modelled by structural functions over `String.data` so that
every definition evaluates by kernel reduction.
-/

namespace GeminiAudio

/-- Models JS `String.prototype.trim`: drop whitespace from both ends. -/
def trimChars (cs : List Char) : List Char :=
  ((cs.dropWhile Char.isWhitespace).reverse.dropWhile Char.isWhitespace).reverse

/-- `s.trim()` on a Lean string. -/
def strTrim (s : String) : String := String.mk (trimChars s.data)

/-- The `Note` record of src/index.tsx (lines 12-18). -/
structure Note where
  id : String
  title : String
  rawTranscription : String
  polishedNote : String
  timestamp : Nat
deriving DecidableEq, Repr

/-- The app state touched by the core logic: the note store (`this.notes`),
the current note pointer, and the DOM panes the pipeline reads and writes
(`editorTitle`, `rawTranscription`, `polishedNote` text, the status line). -/
structure AppState where
  notes : List Note
  currentNote : Option Note
  editorTitle : String
  rawDisplay : String
  polishedDisplay : String
  status : String
deriving DecidableEq, Repr

/-- `const hasContent = raw.trim() || polished.trim()` (JS truthiness):
at least one of the two fields is non-empty after trimming. -/
def HasContent (n : Note) : Prop :=
  strTrim n.rawTranscription ≠ "" ∨ strTrim n.polishedNote ≠ ""

instance (n : Note) : Decidable (HasContent n) := by
  unfold HasContent; infer_instance

/-- `this.currentNote.title = this.editorTitle.textContent?.trim() || 'Untitled Note'`
(line 598): the title overwrite performed at the top of `saveOrUpdateCurrentNote`. -/
def savedNote (editorTitle : String) (n0 : Note) : Note :=
  { n0 with title := if strTrim editorTitle = "" then "Untitled Note" else strTrim editorTitle }

/-- `this.notes.findIndex((n) => n.id === target)` (line 605). -/
def findNoteIndex (targetId : String) : List Note → Option Nat
  | [] => none
  | m :: rest =>
    if m.id = targetId then some 0 else (findNoteIndex targetId rest).map (· + 1)

/-- `saveOrUpdateCurrentNote` (lines 596-613): overwrite the title, bail out
when both content fields trim to empty, otherwise replace the note at its
index or unshift it. -/
def saveOrUpdateCurrentNote (s : AppState) : AppState :=
  match s.currentNote with
  | none => s
  | some n0 =>
    let n := savedNote s.editorTitle n0
    let s1 := { s with currentNote := some n }
    if HasContent n then
      match findNoteIndex n.id s1.notes with
      | some i => { s1 with notes := s1.notes.set i n }
      | none => { s1 with notes := n :: s1.notes }
    else s1

/-! ### Title derivation (getPolishedNote, lines 529-560) -/

/-- `line.startsWith('#')`. -/
def strStartsWithHash (l : String) : Bool :=
  match l.data with
  | '#' :: _ => true
  | _ => false

/-- `line.replace(/^#+\s+/, '')`: strip a leading run of `#` and the
whitespace after it, but only when that whitespace is present (the regex
requires at least one whitespace character after the `#` run). -/
def stripHeading (line : String) : String :=
  match line.data with
  | '#' :: _ =>
    let rest := line.data.dropWhile (fun c => c == '#')
    match rest with
    | c :: _ =>
      if c.isWhitespace then String.mk (rest.dropWhile Char.isWhitespace) else line
    | [] => line
  | _ => line

/-- Membership in the character class of `/^[\*_\`#\->\s\[\]\(.\d)]+/`. -/
def isMarkupChar (c : Char) : Bool :=
  c == '*' || c == '_' || c == '\x60' || c == '#' || c == '-' || c == '>' ||
  c.isWhitespace || c == '[' || c == ']' || c == '(' || c == '.' || c.isDigit || c == ')'

/-- `polishedText.split('\n')`. -/
def splitOnNewline : List Char → List (List Char)
  | [] => [[]]
  | c :: cs =>
    if c == '\n' then [] :: splitOnNewline cs
    else
      match splitOnNewline cs with
      | h :: t => (c :: h) :: t
      | [] => [[c]]

/-- `polishedText.split('\n').map((l) => l.trim())` (line 530). -/
def linesOf (text : String) : List String :=
  (splitOnNewline text.data).map (fun cs => String.mk (trimChars cs))

/-- `potentialTitle.substring(0, 60) + (potentialTitle.length > 60 ? '...' : '')`
(lines 551-554). -/
def truncateTitle (t : String) : String :=
  String.mk (t.data.take 60) ++ (if t.length > 60 then "..." else "")

/-- `line.replace(/^[\*_\`#\->\s\[\]\(.\d)]+/, '').trim()` (lines 545-549). -/
def cleanLeading (l : String) : String :=
  strTrim (String.mk (l.data.dropWhile isMarkupChar))

/-- The first `for` loop of title derivation (lines 531-541): scan for a line
starting with `#`; use its stripped form when non-empty, otherwise keep
scanning. -/
def findHeadingTitle : List String → Option String
  | [] => none
  | line :: rest =>
    if strStartsWithHash line then
      (let title := strTrim (stripHeading line)
       if title = "" then findHeadingTitle rest else some title)
    else findHeadingTitle rest

/-- The fallback `for` loop (lines 543-559): scan for a non-empty line whose
cleaned candidate has more than 3 characters; the loop continues past lines
whose candidate is too short. -/
def findFallbackTitle : List String → Option String
  | [] => none
  | line :: rest =>
    if line.length > 0 then
      (let potentialTitle := cleanLeading line
       if potentialTitle.length > 3 then some (truncateTitle potentialTitle)
       else findFallbackTitle rest)
    else findFallbackTitle rest

/-- Title derivation as implemented: heading loop first, fallback loop only
when no heading title was set (`noteTitleSet`); `none` means the editor
title is left untouched. -/
def deriveTitle (polishedText : String) : Option String :=
  let lines := linesOf polishedText
  match findHeadingTitle lines with
  | some t => some t
  | none => findFallbackTitle lines

/-- The heading rule as a per-line partial function (used to state the
first-match form of the derivation). -/
def headingTitleOf (l : String) : Option String :=
  if strStartsWithHash l then
    (let t := strTrim (stripHeading l)
     if t = "" then none else some t)
  else none

/-- The fallback rule as a per-line partial function. -/
def fallbackTitleOf (l : String) : Option String :=
  if l.length > 0 then
    (let c := cleanLeading l
     if c.length > 3 then some (truncateTitle c) else none)
  else none

/-- Declarative first-match form of title derivation: the first line that the
heading rule accepts wins; only when no line does is the first line accepted
by the fallback rule used. -/
def deriveTitleFirstMatch (polishedText : String) : Option String :=
  let lines := linesOf polishedText
  (lines.findSome? headingTitleOf).orElse
    (fun _ => lines.findSome? fallbackTitleOf)

/-- Title derivation as the specification sentence reads, word for word:
rule (a) takes the first line beginning with a heading marker and strips the
marker (the leading `#` run) and trims; rule (b) takes the first non-empty
line, cleans it, and uses it only if the remainder exceeds 3 characters. -/
def deriveTitleClaim (polishedText : String) : Option String :=
  let lines := linesOf polishedText
  match lines.find? strStartsWithHash with
  | some l => some (strTrim (String.mk (l.data.dropWhile (fun c => c == '#'))))
  | none =>
    match lines.find? (fun l => decide (0 < l.length)) with
    | some l =>
      let c := cleanLeading l
      if c.length > 3 then some (truncateTitle c) else none
    | none => none

/-! ### Transcription pipeline (lines 446-574) -/

/-- The two remote calls of the pipeline. Each pipeline function returns the
list of remote calls it performed, in order. -/
inductive RemoteCall where
  | transcribe
  | polish
deriving DecidableEq, Repr

/-- `getPolishedNote` (lines 508-574). `response = none` models a thrown
transport/service error (the `catch`), `some ""` an empty `response.text`. -/
def getPolishedNote (response : Option String) (s : AppState) : AppState × List RemoteCall :=
  if strTrim s.rawDisplay = "" then
    ({ s with status := "No transcription to polish" }, [])
  else
    match response with
    | none => ({ s with status := "Error polishing note. Please try again." }, [RemoteCall.polish])
    | some polishedText =>
      if polishedText = "" then
        ({ s with status := "Polishing failed or returned empty." }, [RemoteCall.polish])
      else
        let s1 := { s with polishedDisplay := polishedText }
        let s2 := { s1 with editorTitle := (deriveTitle polishedText).getD s1.editorTitle }
        let s3 := { s2 with
          currentNote := s2.currentNote.map (fun n => { n with polishedNote := polishedText }) }
        let s4 := saveOrUpdateCurrentNote s3
        ({ s4 with status := "Note polished. Ready for next recording." }, [RemoteCall.polish])

/-- `getTranscription` (lines 474-506): on a non-empty response, commit the
raw transcription and invoke polishing; otherwise halt with a failure status. -/
def getTranscription (tResponse pResponse : Option String) (s : AppState) :
    AppState × List RemoteCall :=
  let s0 := { s with status := "Getting transcription..." }
  match tResponse with
  | none =>
    ({ s0 with status := "Error getting transcription. Please try again." },
     [RemoteCall.transcribe])
  | some transcriptionText =>
    if transcriptionText = "" then
      ({ s0 with status := "Transcription failed or returned empty." }, [RemoteCall.transcribe])
    else
      let s1 := { s0 with
        rawDisplay := transcriptionText,
        currentNote := s0.currentNote.map (fun n => { n with rawTranscription := transcriptionText }),
        status := "Transcription complete. Polishing note..." }
      let r := getPolishedNote pResponse s1
      (r.1, RemoteCall.transcribe :: r.2)

/-- `processAudio` (lines 446-472). `conversionOk` models the FileReader /
base64 conversion succeeding with a non-empty payload and MIME type. -/
def processAudio (blobSize : Nat) (conversionOk : Bool) (tResponse pResponse : Option String)
    (s : AppState) : AppState × List RemoteCall :=
  if blobSize = 0 then
    ({ s with status := "No audio data captured. Please try again." }, [])
  else
    let s0 := { s with status := "Converting audio..." }
    if conversionOk then getTranscription tResponse pResponse s0
    else ({ s0 with status := "Error processing recording. Please try again." }, [])

/-- The editor-title placeholder attribute (`getAttribute('placeholder') ||
'Untitled Note'`). -/
def titlePlaceholder : String := "Untitled Note"

/-- `displayNote` (lines 668-691), restricted to the text each pane shows. -/
def displayNote (n : Note) (s : AppState) : AppState :=
  { s with
    editorTitle := if n.title = "" then titlePlaceholder else n.title,
    rawDisplay := n.rawTranscription,
    polishedDisplay := n.polishedNote }

/-- `createNewNote` (lines 576-594): fresh draft note becomes current; the
note store is untouched. The capture-teardown branch lives in the recorder
model below. -/
def createNewNote (now : Nat) (s : AppState) : AppState :=
  let n : Note :=
    { id := "note_" ++ toString now, title := "", rawTranscription := "",
      polishedNote := "", timestamp := now }
  { displayNote n { s with currentNote := some n } with status := "Ready to record" }

/-- `deleteNote` (lines 702-709). -/
def deleteNote (noteId : String) (now : Nat) (s : AppState) : AppState :=
  let s1 := { s with notes := s.notes.filter (fun n => n.id != noteId) }
  match s1.currentNote with
  | some c => if c.id = noteId then createNewNote now s1 else s1
  | none => s1

/-- `clearAllNotes` (lines 711-718), confirmed branch. -/
def clearAllNotes (now : Nat) (s : AppState) : AppState :=
  createNewNote now { s with notes := [] }

/-- `handleFileUpload` (lines 158-183): the 50 MB guard runs before any
processing; only below the limit does a fresh note get created and the
pipeline started. -/
def handleFileUpload (fileSize : Nat) (fileName : String) (conversionOk : Bool)
    (tResponse pResponse : Option String) (now : Nat) (s : AppState) :
    AppState × List RemoteCall :=
  if fileSize > 50 * 1024 * 1024 then
    ({ s with status := "File is too large (max 50MB)." }, [])
  else
    let s1 := createNewNote now s
    let s2 := { s1 with status := "Processing \"" ++ fileName ++ "\"..." }
    processAudio fileSize conversionOk tResponse pResponse s2

/-! ### Operation traces over the app state -/

/-- The operations that can touch the note store, plus arbitrary writes to
the current-note pointer and the editor title (covering `displayNoteById`
and every in-flight pipeline mutation). -/
inductive AppOp where
  | save
  | setCurrent (n : Option Note)
  | setEditorTitle (t : String)
  | newNote (now : Nat)
  | delete (noteId : String) (now : Nat)
  | clearAll (now : Nat)
  | pipeline (tResponse pResponse : Option String)
  | upload (fileSize : Nat) (fileName : String) (conversionOk : Bool)
      (tResponse pResponse : Option String) (now : Nat)

def applyOp (s : AppState) : AppOp → AppState
  | AppOp.save => saveOrUpdateCurrentNote s
  | AppOp.setCurrent n => { s with currentNote := n }
  | AppOp.setEditorTitle t => { s with editorTitle := t }
  | AppOp.newNote now => createNewNote now s
  | AppOp.delete noteId now => deleteNote noteId now s
  | AppOp.clearAll now => clearAllNotes now s
  | AppOp.pipeline t p => (getTranscription t p s).1
  | AppOp.upload size name ok t p now => (handleFileUpload size name ok t p now s).1

/-- The state after the constructor: empty store, fresh draft note. -/
def initAppState : AppState :=
  createNewNote 0
    { notes := [], currentNote := none, editorTitle := "", rawDisplay := "",
      polishedDisplay := "", status := "" }

def runApp (ops : List AppOp) : AppState :=
  ops.foldl applyOp initAppState

/-- The store invariant: every persisted note has content. -/
def StoreInv (s : AppState) : Prop := ∀ m ∈ s.notes, HasContent m

/-! ### Audio capture session (lines 367-444) -/

/-- Environment of one `startRecording` call: whether `getUserMedia`
(either attempt) succeeds, whether a `MediaRecorder` can be constructed,
and whether an acquisition failure is a permission error
(`NotAllowedError`/`PermissionDeniedError`). -/
structure StartEnv where
  acquireOk : Bool
  recorderOk : Bool
  permissionError : Bool
deriving DecidableEq, Repr

/-- Recorder-side state: the stream held by `this.stream` (streams are
numbered in acquisition order), the recorder handle, the buffered chunk
sizes, and the recording flag. -/
structure RecState where
  stream : Option Nat
  isRecording : Bool
  audioChunks : List Nat
  mediaRecorder : Option Nat
  nextStreamId : Nat
  recStatus : String
deriving DecidableEq, Repr

/-- Observable hardware events: acquiring a stream, stopping all its tracks. -/
inductive RecEvent where
  | acquire (sid : Nat)
  | stopTracks (sid : Nat)
deriving DecidableEq, Repr

/-- Occurrences of an event in a trace. -/
def countEv (e : RecEvent) : List RecEvent → Nat
  | [] => 0
  | x :: xs => (if x = e then 1 else 0) + countEv e xs

/-- `startRecording` (lines 367-432). The teardown stops the old stream's
tracks but leaves `this.stream` pointing at it (line 370), so the `catch`
of a failed acquisition stops those tracks a second time before nulling the
field (lines 426-427). -/
def startRecording (env : StartEnv) (s : RecState) : RecState × List RecEvent :=
  let s0 := { s with audioChunks := [] }
  let tearEv : List RecEvent :=
    match s0.stream with
    | some sid => [RecEvent.stopTracks sid]
    | none => []
  let s1 := { s0 with recStatus := "Requesting microphone access..." }
  if env.acquireOk then
    let sid := s1.nextStreamId
    let s2 := { s1 with stream := some sid, nextStreamId := s1.nextStreamId + 1 }
    if env.recorderOk then
      ({ s2 with mediaRecorder := some sid, isRecording := true },
       tearEv ++ [RecEvent.acquire sid])
    else
      ({ s2 with
          stream := none,
          isRecording := false,
          recStatus := "Error accessing microphone. Please check connection." },
       tearEv ++ [RecEvent.acquire sid, RecEvent.stopTracks sid])
  else
    let catchEv : List RecEvent :=
      match s1.stream with
      | some sid => [RecEvent.stopTracks sid]
      | none => []
    ({ s1 with
        stream := none,
        isRecording := false,
        recStatus :=
          if env.permissionError then
            "Microphone permission denied. Please check browser settings."
          else "Error accessing microphone. Please check connection." },
     tearEv ++ catchEv)

/-- The recorder's `onstop` handler (lines 395-407): finalize the chunks into
an artifact and launch `processAudio` when non-empty, otherwise report the
empty capture; in both cases stop the stream's tracks and null the field.
The returned `Bool` is whether the transcription pipeline was started. -/
def handleRecorderStop (s : RecState) : RecState × List RecEvent × Bool :=
  let started := s.audioChunks.length > 0
  let s1 :=
    if s.audioChunks.length > 0 then s
    else { s with recStatus := "No audio data captured. Please try again." }
  match s1.stream with
  | some sid => ({ s1 with stream := none }, [RecEvent.stopTracks sid], started)
  | none => (s1, [], started)

/-- `stopRecording` (lines 434-444) composed with the `onstop` finalize. -/
def stopRecording (s : RecState) : RecState × List RecEvent × Bool :=
  if s.mediaRecorder.isSome && s.isRecording then
    handleRecorderStop { s with isRecording := false, recStatus := "Processing audio..." }
  else (s, [], false)

/-- The capture-teardown branch of `createNewNote` (lines 586-592):
`mediaRecorder?.stop()` fires the same `onstop` finalize. -/
def newNoteTeardown (s : RecState) : RecState × List RecEvent × Bool :=
  if s.isRecording then
    match s.mediaRecorder with
    | some _ => handleRecorderStop { s with isRecording := false }
    | none => ({ s with isRecording := false }, [], false)
  else (s, [], false)

/-- Recorder-side operations: the record button (`toggleRecording`), a
`dataavailable` event carrying a chunk of the given size, and a new-note
request. -/
inductive RecOp where
  | toggle (env : StartEnv)
  | data (size : Nat)
  | newNote

def recStep (s : RecState) : RecOp → RecState × List RecEvent
  | RecOp.toggle env =>
    if s.isRecording then
      (let r := stopRecording s
       (r.1, r.2.1))
    else startRecording env s
  | RecOp.data n =>
    (if s.isRecording && n > 0 then { s with audioChunks := s.audioChunks ++ [n] } else s, [])
  | RecOp.newNote =>
    (let r := newNoteTeardown s
     (r.1, r.2.1))

def initRecState : RecState :=
  { stream := none, isRecording := false, audioChunks := [], mediaRecorder := none,
    nextStreamId := 0, recStatus := "Ready to record" }

def runRecFrom (s : RecState) (evs : List RecEvent) : List RecOp → RecState × List RecEvent
  | [] => (s, evs)
  | op :: ops =>
    let r := recStep s op
    runRecFrom r.1 (evs ++ r.2) ops

/-- The recorder trace semantics: final state and hardware-event trace of a
sequence of user interactions. -/
def runRec (ops : List RecOp) : RecState × List RecEvent :=
  runRecFrom initRecState [] ops

/-- The stream-lifecycle invariant: when not recording no stream is held;
the acquired stream ids are exactly those below `nextStreamId`; the held
stream is unreleased and every other acquired stream was released exactly
once; recording implies a live recorder handle. -/
def RecInv (s : RecState) (evs : List RecEvent) : Prop :=
  (s.isRecording = false → s.stream = none) ∧
  (∀ sid, RecEvent.acquire sid ∈ evs ↔ sid < s.nextStreamId) ∧
  (∀ sid, s.stream = some sid →
      sid < s.nextStreamId ∧ s.isRecording = true ∧ countEv (RecEvent.stopTracks sid) evs = 0) ∧
  (∀ sid, sid < s.nextStreamId → s.stream ≠ some sid →
      countEv (RecEvent.stopTracks sid) evs = 1) ∧
  (∀ sid, s.nextStreamId ≤ sid → countEv (RecEvent.stopTracks sid) evs = 0) ∧
  (s.isRecording = true → s.mediaRecorder.isSome = true)

/-! ### Concrete fixtures for witnesses and counterexamples -/

def noteA : Note :=
  { id := "a", title := "A", rawTranscription := "alpha", polishedNote := "", timestamp := 1 }

def noteB : Note :=
  { id := "b", title := "B", rawTranscription := "beta", polishedNote := "", timestamp := 2 }

def nDraft : Note :=
  { id := "c", title := "old", rawTranscription := " ", polishedNote := "", timestamp := 3 }

def sDraft : AppState :=
  { notes := [noteA], currentNote := some nDraft, editorTitle := "  My Title  ",
    rawDisplay := "", polishedDisplay := "", status := "" }

def sUpsert : AppState :=
  { notes := [noteA, noteB], currentNote := some { noteB with rawTranscription := "beta2" },
    editorTitle := "B2", rawDisplay := "", polishedDisplay := "", status := "" }

def sMid : AppState :=
  { notes := [noteA], currentNote := some noteB, editorTitle := "B",
    rawDisplay := "beta", polishedDisplay := "", status := "" }

def envOk : StartEnv := { acquireOk := true, recorderOk := true, permissionError := false }

def sRec : RecState :=
  { stream := some 0, isRecording := true, audioChunks := [], mediaRecorder := some 0,
    nextStreamId := 1, recStatus := "Recording..." }

/-! ## Helper lemmas -/

theorem mem_set_cases {α : Type} (a m : α) :
    ∀ (l : List α) (i : Nat), m ∈ l.set i a → m ∈ l ∨ m = a := by
  intro l
  induction l with
  | nil => intro i h; simp [List.set] at h
  | cons x xs ih =>
    intro i h
    match i with
    | 0 =>
      simp [List.set] at h
      rcases h with h | h
      · exact Or.inr h
      · exact Or.inl (List.mem_cons_of_mem _ h)
    | Nat.succ j =>
      simp [List.set] at h
      rcases h with h | h
      · exact Or.inl (by simp [h])
      · rcases ih j h with h' | h'
        · exact Or.inl (List.mem_cons_of_mem _ h')
        · exact Or.inr h'

theorem set_append_len {α : Type} (old a : α) :
    ∀ (l1 l2 : List α), (l1 ++ old :: l2).set l1.length a = l1 ++ a :: l2 := by
  intro l1
  induction l1 with
  | nil => intro l2; simp [List.set]
  | cons x xs ih => intro l2; simp [List.set, ih]

theorem findNoteIndex_of_not_mem (tid : String) :
    ∀ l : List Note, (∀ m ∈ l, m.id ≠ tid) → findNoteIndex tid l = none := by
  intro l
  induction l with
  | nil => intro _; rfl
  | cons x xs ih =>
    intro h
    have hx : x.id ≠ tid := h x (List.mem_cons_self _ _)
    simp [findNoteIndex, hx]
    exact ih (fun m hm => h m (List.mem_cons_of_mem _ hm))

theorem findNoteIndex_append (tid : String) (old : Note) (l2 : List Note)
    (h2 : old.id = tid) :
    ∀ l1 : List Note, (∀ m ∈ l1, m.id ≠ tid) →
      findNoteIndex tid (l1 ++ old :: l2) = some l1.length := by
  intro l1
  induction l1 with
  | nil => intro _; simp [findNoteIndex, h2]
  | cons x xs ih =>
    intro h
    have hx : x.id ≠ tid := h x (List.mem_cons_self _ _)
    have := ih (fun m hm => h m (List.mem_cons_of_mem _ hm))
    simp [findNoteIndex, hx, this]

theorem savedNote_id (t : String) (n : Note) : (savedNote t n).id = n.id := rfl

theorem savedNote_raw (t : String) (n : Note) :
    (savedNote t n).rawTranscription = n.rawTranscription := rfl

theorem savedNote_polished (t : String) (n : Note) :
    (savedNote t n).polishedNote = n.polishedNote := rfl

theorem save_of_none (s : AppState) (hc : s.currentNote = none) :
    saveOrUpdateCurrentNote s = s := by
  unfold saveOrUpdateCurrentNote
  rw [hc]

theorem save_of_not_hasContent (s : AppState) (n0 : Note) (hc : s.currentNote = some n0)
    (h : ¬ HasContent (savedNote s.editorTitle n0)) :
    saveOrUpdateCurrentNote s = { s with currentNote := some (savedNote s.editorTitle n0) } := by
  unfold saveOrUpdateCurrentNote
  rw [hc]
  simp [h]

theorem save_of_findIdx_some (s : AppState) (n0 : Note) (i : Nat)
    (hc : s.currentNote = some n0) (h : HasContent (savedNote s.editorTitle n0))
    (hidx : findNoteIndex n0.id s.notes = some i) :
    saveOrUpdateCurrentNote s =
      { s with currentNote := some (savedNote s.editorTitle n0),
               notes := s.notes.set i (savedNote s.editorTitle n0) } := by
  unfold saveOrUpdateCurrentNote
  rw [hc]
  simp only []
  rw [if_pos h]
  have : findNoteIndex (savedNote s.editorTitle n0).id s.notes = some i := by
    rw [savedNote_id]; exact hidx
  rw [this]

theorem save_of_findIdx_none (s : AppState) (n0 : Note)
    (hc : s.currentNote = some n0) (h : HasContent (savedNote s.editorTitle n0))
    (hidx : findNoteIndex n0.id s.notes = none) :
    saveOrUpdateCurrentNote s =
      { s with currentNote := some (savedNote s.editorTitle n0),
               notes := savedNote s.editorTitle n0 :: s.notes } := by
  unfold saveOrUpdateCurrentNote
  rw [hc]
  simp only []
  rw [if_pos h]
  have : findNoteIndex (savedNote s.editorTitle n0).id s.notes = none := by
    rw [savedNote_id]; exact hidx
  rw [this]

/-! ## Claim theorems -/

/-- C10: even when the content check makes `saveOrUpdateCurrentNote` skip the
store, it is not a pure no-op on the note: the current note's title is first
overwritten with the trimmed editor title, or with "Untitled Note" when the
trimmed editor title is empty, and only then is the (failing) content check
performed, leaving the store untouched. -/
theorem save_overwrites_title_without_content (s : AppState) (n : Note)
    (hc : s.currentNote = some n)
    (hr : strTrim n.rawTranscription = "") (hp : strTrim n.polishedNote = "") :
    saveOrUpdateCurrentNote s =
      { s with currentNote := some { n with title :=
          if (strTrim s.editorTitle = "") then "Untitled Note" else strTrim s.editorTitle } } ∧
    (saveOrUpdateCurrentNote s).notes = s.notes := by
  have hnc : ¬ HasContent (savedNote s.editorTitle n) := by
    simp [HasContent, savedNote, hr, hp]
  have h := save_of_not_hasContent s n hc hnc
  exact ⟨by rw [h]; rfl, by rw [h]⟩

theorem save_overwrites_title_without_content_holds :
    saveOrUpdateCurrentNote sDraft =
      { sDraft with currentNote := some { nDraft with title := "My Title" } } ∧
    (saveOrUpdateCurrentNote sDraft).notes = sDraft.notes := by
  have h := save_overwrites_title_without_content sDraft nDraft rfl (by decide) (by decide)
  exact ⟨h.1.trans (by decide), h.2⟩

/-- C5: a file strictly larger than the fixed 50 MB bound is rejected at once
with the size-specific message; the state is otherwise untouched (no new note,
no pipeline start) and no remote call is made. -/
theorem oversized_upload_rejected (s : AppState) (fileSize : Nat) (fileName : String)
    (conversionOk : Bool) (tResponse pResponse : Option String) (now : Nat)
    (h : fileSize > 50 * 1024 * 1024) :
    handleFileUpload fileSize fileName conversionOk tResponse pResponse now s =
      ({ s with status := "File is too large (max 50MB)." }, []) := by
  simp [handleFileUpload, h]

theorem oversized_upload_rejected_holds :
    handleFileUpload (60 * 1024 * 1024) "big.mp3" true (some "t") (some "p") 5 sMid =
      ({ sMid with status := "File is too large (max 50MB)." }, []) :=
  oversized_upload_rejected sMid (60 * 1024 * 1024) "big.mp3" true (some "t") (some "p") 5
    (by decide)

/-- C3: when the transcription stage throws or returns empty text, the
pipeline halts with a transcription-failure status, the polishing call is
never made, and neither the store nor the current note changes. -/
theorem transcription_failure_halts (s : AppState) (tResponse pResponse : Option String)
    (h : tResponse = none ∨ tResponse = some "") :
    (getTranscription tResponse pResponse s).1.notes = s.notes ∧
    (getTranscription tResponse pResponse s).1.currentNote = s.currentNote ∧
    RemoteCall.polish ∉ (getTranscription tResponse pResponse s).2 ∧
    ((getTranscription tResponse pResponse s).1.status =
        "Transcription failed or returned empty." ∨
      (getTranscription tResponse pResponse s).1.status =
        "Error getting transcription. Please try again.") := by
  rcases h with h | h <;> subst h <;> simp [getTranscription]

theorem transcription_failure_halts_holds :
    (getTranscription (some "") (some "p") sMid).1.notes = sMid.notes ∧
    (getTranscription (some "") (some "p") sMid).1.currentNote = sMid.currentNote ∧
    RemoteCall.polish ∉ (getTranscription (some "") (some "p") sMid).2 ∧
    ((getTranscription (some "") (some "p") sMid).1.status =
        "Transcription failed or returned empty." ∨
      (getTranscription (some "") (some "p") sMid).1.status =
        "Error getting transcription. Please try again.") :=
  transcription_failure_halts sMid (some "") (some "p") (Or.inr rfl)

/-- C4: when the polishing stage (invoked on a non-empty raw transcription)
throws or returns empty text, the pipeline halts with a polishing-failure
status and only the status line changes: the current note (and so its raw
transcription) is untouched, the polished field is not overwritten, the
displayed raw transcription stays visible, and the store is unchanged. -/
theorem polishing_failure_preserves_raw (s : AppState) (pResponse : Option String)
    (h : pResponse = none ∨ pResponse = some "")
    (hg : strTrim s.rawDisplay ≠ "") :
    (getPolishedNote pResponse s).1.currentNote = s.currentNote ∧
    (getPolishedNote pResponse s).1.notes = s.notes ∧
    (getPolishedNote pResponse s).1.rawDisplay = s.rawDisplay ∧
    (getPolishedNote pResponse s).1.polishedDisplay = s.polishedDisplay ∧
    (getPolishedNote pResponse s).1.editorTitle = s.editorTitle ∧
    ((getPolishedNote pResponse s).1.status = "Polishing failed or returned empty." ∨
      (getPolishedNote pResponse s).1.status = "Error polishing note. Please try again.") := by
  rcases h with h | h <;> subst h <;> simp [getPolishedNote, hg]

theorem polishing_failure_preserves_raw_holds :
    (getPolishedNote (some "") sMid).1.currentNote = sMid.currentNote ∧
    (getPolishedNote (some "") sMid).1.notes = sMid.notes ∧
    (getPolishedNote (some "") sMid).1.rawDisplay = sMid.rawDisplay ∧
    (getPolishedNote (some "") sMid).1.polishedDisplay = sMid.polishedDisplay ∧
    (getPolishedNote (some "") sMid).1.editorTitle = sMid.editorTitle ∧
    ((getPolishedNote (some "") sMid).1.status = "Polishing failed or returned empty." ∨
      (getPolishedNote (some "") sMid).1.status = "Error polishing note. Please try again.") :=
  polishing_failure_preserves_raw sMid (some "") (Or.inr rfl) (by decide)

/-- C9, counterexample: upserting a note whose id already exists does NOT
move it to the front of the sequence. In `sUpsert` the store is `[noteA,
noteB]` and the current note is an updated copy of `noteB`; after saving,
the updated note is still in second position, not first, so the sequence is
not most-recently-updated-first. -/
theorem upsert_not_recency_counterexample :
    (saveOrUpdateCurrentNote sUpsert).notes =
      [noteA,
       { id := "b", title := "B2", rawTranscription := "beta2", polishedNote := "",
         timestamp := 2 }] ∧
    (saveOrUpdateCurrentNote sUpsert).notes.head? ≠
      some { id := "b", title := "B2", rawTranscription := "beta2", polishedNote := "",
             timestamp := 2 } := by
  decide

/-- C9, amended: if a note with the current note's id exists, the first such
note is replaced at its existing position (not moved); otherwise the note is
inserted at the front; all other notes are unchanged. -/
theorem upsert_replace_in_place (s : AppState) (n0 : Note)
    (hc : s.currentNote = some n0)
    (hcontent : HasContent (savedNote s.editorTitle n0)) :
    ((∀ m ∈ s.notes, m.id ≠ n0.id) →
        (saveOrUpdateCurrentNote s).notes = savedNote s.editorTitle n0 :: s.notes) ∧
    (∀ l1 old l2, s.notes = l1 ++ old :: l2 → (∀ m ∈ l1, m.id ≠ n0.id) → old.id = n0.id →
        (saveOrUpdateCurrentNote s).notes = l1 ++ savedNote s.editorTitle n0 :: l2) := by
  constructor
  · intro hnone
    have hidx : findNoteIndex n0.id s.notes = none :=
      findNoteIndex_of_not_mem n0.id s.notes hnone
    rw [save_of_findIdx_none s n0 hc hcontent hidx]
  · intro l1 old l2 hsplit h1 h2
    have hidx : findNoteIndex n0.id s.notes = some l1.length := by
      rw [hsplit]; exact findNoteIndex_append n0.id old l2 h2 l1 h1
    rw [save_of_findIdx_some s n0 l1.length hc hcontent hidx]
    simp only [hsplit]
    exact set_append_len old (savedNote s.editorTitle n0) l1 l2

theorem upsert_replace_in_place_holds :
    (saveOrUpdateCurrentNote sUpsert).notes =
      [noteA] ++ savedNote sUpsert.editorTitle { noteB with rawTranscription := "beta2" } :: [] := by
  have h := upsert_replace_in_place sUpsert { noteB with rawTranscription := "beta2" }
    rfl (by decide)
  exact h.2 [noteA] noteB [] (by decide) (by decide) (by decide)

theorem storeInv_of_notes_eq {t s : AppState} (hn : t.notes = s.notes) (h : StoreInv s) :
    StoreInv t := by
  unfold StoreInv at *
  rw [hn]
  exact h

theorem save_preserves_storeInv (s : AppState) (h : StoreInv s) :
    StoreInv (saveOrUpdateCurrentNote s) := by
  unfold StoreInv at h ⊢
  cases hc : s.currentNote with
  | none => rw [save_of_none s hc]; exact h
  | some n0 =>
    by_cases hcon : HasContent (savedNote s.editorTitle n0)
    · cases hidx : findNoteIndex n0.id s.notes with
      | some i =>
        rw [save_of_findIdx_some s n0 i hc hcon hidx]
        intro m hm
        rcases mem_set_cases (savedNote s.editorTitle n0) m s.notes i hm with h' | h'
        · exact h m h'
        · rw [h']; exact hcon
      | none =>
        rw [save_of_findIdx_none s n0 hc hcon hidx]
        intro m hm
        rcases List.mem_cons.mp hm with h' | h'
        · rw [h']; exact hcon
        · exact h m h'
    · rw [save_of_not_hasContent s n0 hc hcon]; exact h

theorem createNewNote_notes (now : Nat) (s : AppState) :
    (createNewNote now s).notes = s.notes := rfl

theorem getPolishedNote_storeInv (r : Option String) (s : AppState) (h : StoreInv s) :
    StoreInv (getPolishedNote r s).1 := by
  by_cases hg : strTrim s.rawDisplay = ""
  · simp only [getPolishedNote, if_pos hg]
    exact storeInv_of_notes_eq rfl h
  · cases r with
    | none =>
      simp only [getPolishedNote, if_neg hg]
      exact storeInv_of_notes_eq rfl h
    | some t =>
      by_cases ht : t = ""
      · simp only [getPolishedNote, if_neg hg, if_pos ht]
        exact storeInv_of_notes_eq rfl h
      · simp only [getPolishedNote, if_neg hg, if_neg ht]
        exact storeInv_of_notes_eq rfl (save_preserves_storeInv _ (storeInv_of_notes_eq rfl h))

theorem getTranscription_storeInv (t p : Option String) (s : AppState) (h : StoreInv s) :
    StoreInv (getTranscription t p s).1 := by
  cases t with
  | none =>
    simp only [getTranscription]
    exact storeInv_of_notes_eq rfl h
  | some tx =>
    by_cases ht : tx = ""
    · simp only [getTranscription, if_pos ht]
      exact storeInv_of_notes_eq rfl h
    · simp only [getTranscription, if_neg ht]
      exact getPolishedNote_storeInv p _ (storeInv_of_notes_eq rfl h)

theorem processAudio_storeInv (b : Nat) (ok : Bool) (t p : Option String) (s : AppState)
    (h : StoreInv s) : StoreInv (processAudio b ok t p s).1 := by
  by_cases hb : b = 0
  · simp only [processAudio, if_pos hb]
    exact storeInv_of_notes_eq rfl h
  · cases ok with
    | false =>
      simp only [processAudio, if_neg hb]
      exact storeInv_of_notes_eq rfl h
    | true =>
      simp only [processAudio, if_neg hb]
      exact getTranscription_storeInv t p _ (storeInv_of_notes_eq rfl h)

theorem handleFileUpload_storeInv (size : Nat) (name : String) (ok : Bool)
    (t p : Option String) (now : Nat) (s : AppState) (h : StoreInv s) :
    StoreInv (handleFileUpload size name ok t p now s).1 := by
  by_cases hs : size > 50 * 1024 * 1024
  · simp only [handleFileUpload, if_pos hs]
    exact storeInv_of_notes_eq rfl h
  · simp only [handleFileUpload, if_neg hs]
    exact processAudio_storeInv size ok t p _ (storeInv_of_notes_eq rfl h)

theorem deleteNote_storeInv (noteId : String) (now : Nat) (s : AppState) (h : StoreInv s) :
    StoreInv (deleteNote noteId now s) := by
  have h1 : StoreInv { s with notes := s.notes.filter (fun n => n.id != noteId) } := by
    intro m hm
    exact h m (List.mem_of_mem_filter hm)
  unfold deleteNote
  cases hc : s.currentNote with
  | none =>
    simp only [hc]
    exact h1
  | some c =>
    simp only [hc]
    by_cases hid : c.id = noteId
    · simp only [hid, if_pos rfl]
      exact storeInv_of_notes_eq rfl h1
    · simp only [if_neg hid]
      exact h1

theorem clearAllNotes_storeInv (now : Nat) (s : AppState) :
    StoreInv (clearAllNotes now s) := by
  intro m hm
  simp [clearAllNotes, createNewNote, displayNote] at hm

theorem applyOp_storeInv (s : AppState) (op : AppOp) (h : StoreInv s) :
    StoreInv (applyOp s op) := by
  cases op with
  | save => exact save_preserves_storeInv s h
  | setCurrent n => exact storeInv_of_notes_eq rfl h
  | setEditorTitle t => exact storeInv_of_notes_eq rfl h
  | newNote now => exact storeInv_of_notes_eq (createNewNote_notes now s) h
  | delete noteId now => exact deleteNote_storeInv noteId now s h
  | clearAll now => exact clearAllNotes_storeInv now s
  | pipeline t p => exact getTranscription_storeInv t p s h
  | upload size name ok t p now => exact handleFileUpload_storeInv size name ok t p now s h

theorem foldl_applyOp_storeInv :
    ∀ (ops : List AppOp) (s : AppState), StoreInv s → StoreInv (ops.foldl applyOp s) := by
  intro ops
  induction ops with
  | nil => intro s h; exact h
  | cons op rest ih =>
    intro s h
    exact ih (applyOp s op) (applyOp_storeInv s op h)

/-- C1: across every sequence of operations from the initial state, every
note present in the store has non-empty trimmed transcription or polished
content; and `saveOrUpdateCurrentNote` leaves the store's sequence unchanged
whenever the current note has both fields empty after trimming. -/
theorem empty_note_never_persisted :
    (∀ ops : List AppOp, StoreInv (runApp ops)) ∧
    (∀ (s : AppState) (n : Note), s.currentNote = some n →
        strTrim n.rawTranscription = "" → strTrim n.polishedNote = "" →
        (saveOrUpdateCurrentNote s).notes = s.notes) := by
  constructor
  · intro ops
    apply foldl_applyOp_storeInv
    intro m hm
    simp [initAppState, createNewNote, displayNote] at hm
  · intro s n hc hr hp
    have hnc : ¬ HasContent (savedNote s.editorTitle n) := by
      simp [HasContent, savedNote, hr, hp]
    rw [save_of_not_hasContent s n hc hnc]

theorem empty_note_never_persisted_holds :
    HasContent (savedNote "Untitled Note" noteA) ∧
    (saveOrUpdateCurrentNote sDraft).notes = sDraft.notes :=
  ⟨empty_note_never_persisted.1 [AppOp.setCurrent (some noteA), AppOp.save]
      (savedNote "Untitled Note" noteA) (by decide),
   empty_note_never_persisted.2 sDraft nDraft rfl (by decide) (by decide)⟩

/-- C2, counterexample: the implemented derivation differs from the claim's
wording at two concrete inputs. On "ab\nhello world" the claim's rule (b)
looks only at the first non-empty line ("ab", cleaned length 2, too short)
and yields no title, but the code keeps scanning and titles the note
"hello world". On "#Intro" the claim strips the heading marker and yields
"Intro", but the code's regex only strips a `#` run that is followed by
whitespace, so the title keeps the marker: "#Intro". -/
theorem title_derivation_counterexample :
    deriveTitleClaim "ab\nhello world" = none ∧
    deriveTitle "ab\nhello world" = some "hello world" ∧
    deriveTitleClaim "#Intro" = some "Intro" ∧
    deriveTitle "#Intro" = some "#Intro" := by
  decide

theorem findHeadingTitle_eq_findSome :
    ∀ lines : List String, findHeadingTitle lines = lines.findSome? headingTitleOf := by
  intro lines
  induction lines with
  | nil => rfl
  | cons l rest ih =>
    by_cases h : strStartsWithHash l
    · by_cases ht : strTrim (stripHeading l) = ""
      · simp [findHeadingTitle, headingTitleOf, h, ht, ih, List.findSome?_cons]
      · simp [findHeadingTitle, headingTitleOf, h, ht, List.findSome?_cons]
    · simp [findHeadingTitle, headingTitleOf, h, ih, List.findSome?_cons]

theorem findFallbackTitle_eq_findSome :
    ∀ lines : List String, findFallbackTitle lines = lines.findSome? fallbackTitleOf := by
  intro lines
  induction lines with
  | nil => rfl
  | cons l rest ih =>
    by_cases h : l.length > 0
    · by_cases hl : (cleanLeading l).length > 3
      · simp [findFallbackTitle, fallbackTitleOf, h, hl, List.findSome?_cons]
      · simp [findFallbackTitle, fallbackTitleOf, h, hl, ih, List.findSome?_cons]
    · simp [findFallbackTitle, fallbackTitleOf, h, ih, List.findSome?_cons]

/-- C2, amended: title derivation is a pure function of the polished text
(hence idempotent for the same text) and is first-match with rule (a)
strictly before rule (b): the title is that of the first line accepted by
the heading rule (a line starting with `#`, with the `#` run and following
whitespace stripped only when that whitespace is present, then trimmed);
only when no line is accepted by the heading rule is the first line whose
cleaned candidate exceeds 3 characters used, truncated to exactly 60
characters plus "..." when the candidate exceeds 60 characters and
unchanged otherwise (the truncation formula is `truncateTitle`, applied
inside `fallbackTitleOf`); if no line is accepted by either rule the title
is unset. -/
theorem title_derivation_first_match (polishedText : String) :
    deriveTitle polishedText = deriveTitleFirstMatch polishedText := by
  simp only [deriveTitle, deriveTitleFirstMatch, findHeadingTitle_eq_findSome,
    findFallbackTitle_eq_findSome]
  cases h : (linesOf polishedText).findSome? headingTitleOf with
  | none => simp [Option.orElse]
  | some t => simp [Option.orElse]

/-- C6: calling `startRecording` while a stream is held first clears the
buffered audio and stops all tracks of the previous stream, and only then
acquires the new one: in the emitted hardware-event order the release of the
old stream strictly precedes the acquisition of the new, the two streams are
distinct, and on success the new stream is the one held. -/
theorem start_teardown_before_acquire (s : RecState) (env : StartEnv) (old : Nat)
    (hs : s.stream = some old) (hlt : old < s.nextStreamId) (hacq : env.acquireOk = true) :
    (startRecording env s).2 =
      RecEvent.stopTracks old :: RecEvent.acquire s.nextStreamId ::
        (if env.recorderOk then [] else [RecEvent.stopTracks s.nextStreamId]) ∧
    (startRecording env s).1.audioChunks = [] ∧
    old ≠ s.nextStreamId ∧
    (env.recorderOk = true → (startRecording env s).1.stream = some s.nextStreamId) := by
  cases hrec : env.recorderOk <;>
    refine ⟨?_, ?_, by omega, ?_⟩ <;>
    simp [startRecording, hs, hacq, hrec]

theorem start_teardown_before_acquire_holds :
    (startRecording { acquireOk := true, recorderOk := true, permissionError := false } sRec).2 =
      RecEvent.stopTracks 0 :: RecEvent.acquire sRec.nextStreamId ::
        (if (true : Bool) then [] else [RecEvent.stopTracks sRec.nextStreamId]) ∧
    (startRecording { acquireOk := true, recorderOk := true, permissionError := false }
        sRec).1.audioChunks = [] ∧
    0 ≠ sRec.nextStreamId ∧
    ((true : Bool) = true →
      (startRecording { acquireOk := true, recorderOk := true, permissionError := false }
          sRec).1.stream = some sRec.nextStreamId) :=
  start_teardown_before_acquire sRec
    { acquireOk := true, recorderOk := true, permissionError := false } 0
    rfl (by decide) rfl

/-- C8: when the recorder finalizes with no buffered chunks (only non-empty
chunks are ever buffered, so this is the zero-bytes capture), `stopRecording`
reports the empty capture with the "try again" message — which differs from
the permission-denied message — and does not start the transcription
pipeline. -/
theorem empty_capture_no_pipeline (s : RecState)
    (hrec : s.isRecording = true) (hmr : s.mediaRecorder.isSome = true)
    (hchunks : s.audioChunks = []) :
    (stopRecording s).2.2 = false ∧
    (stopRecording s).1.recStatus = "No audio data captured. Please try again." ∧
    "No audio data captured. Please try again." ≠
      "Microphone permission denied. Please check browser settings." ∧
    (stopRecording s).1.isRecording = false := by
  refine ⟨?_, ?_, by decide, ?_⟩ <;>
    cases hstream : s.stream <;>
    simp [stopRecording, handleRecorderStop, hrec, hmr, hchunks, hstream]

theorem empty_capture_no_pipeline_holds :
    (stopRecording sRec).2.2 = false ∧
    (stopRecording sRec).1.recStatus = "No audio data captured. Please try again." ∧
    "No audio data captured. Please try again." ≠
      "Microphone permission denied. Please check browser settings." ∧
    (stopRecording sRec).1.isRecording = false :=
  empty_capture_no_pipeline sRec rfl rfl rfl

theorem countEv_append (e : RecEvent) :
    ∀ l1 l2 : List RecEvent, countEv e (l1 ++ l2) = countEv e l1 + countEv e l2 := by
  intro l1 l2
  induction l1 with
  | nil => simp [countEv]
  | cons x xs ih => simp [countEv, ih]; omega

theorem recInv_init : RecInv initRecState [] := by
  refine ⟨fun _ => rfl, ?_, ?_, ?_, ?_, ?_⟩
  · intro sid; simp [initRecState]
  · intro sid h; simp [initRecState] at h
  · intro sid h; simp [initRecState] at h
  · intro sid _; rfl
  · intro h; simp [initRecState] at h

theorem handleRecorderStop_recInv (s t : RecState) (evs : List RecEvent)
    (h : RecInv s evs)
    (hstream : t.stream = s.stream) (hnext : t.nextStreamId = s.nextStreamId)
    (hrec : t.isRecording = false) :
    RecInv (handleRecorderStop t).1 (evs ++ (handleRecorderStop t).2.1) := by
  obtain ⟨h1, h2, h3, h4, h5, h6⟩ := h
  cases hso : s.stream with
  | none =>
    have ht : t.stream = none := by rw [hstream, hso]
    have hres : (handleRecorderStop t).1.stream = none ∧
        (handleRecorderStop t).1.nextStreamId = s.nextStreamId ∧
        (handleRecorderStop t).1.isRecording = false ∧
        (handleRecorderStop t).2.1 = [] := by
      by_cases hlen : t.audioChunks.length > 0 <;>
        simp [handleRecorderStop, hlen, ht, hnext, hrec]
    obtain ⟨r1, r2, r3, r4⟩ := hres
    rw [r4, List.append_nil]
    refine ⟨fun _ => r1, ?_, ?_, ?_, ?_, ?_⟩
    · intro sid; rw [r2]; exact h2 sid
    · intro sid hsid; rw [r1] at hsid; cases hsid
    · intro sid hsid _
      rw [r2] at hsid
      exact h4 sid hsid (by rw [hso]; simp)
    · intro sid hsid; rw [r2] at hsid; exact h5 sid hsid
    · intro habs; rw [r3] at habs; cases habs
  | some sid0 =>
    have ht : t.stream = some sid0 := by rw [hstream, hso]
    obtain ⟨hlt0, _, hcnt0⟩ := h3 sid0 hso
    have hres : (handleRecorderStop t).1.stream = none ∧
        (handleRecorderStop t).1.nextStreamId = s.nextStreamId ∧
        (handleRecorderStop t).1.isRecording = false ∧
        (handleRecorderStop t).2.1 = [RecEvent.stopTracks sid0] := by
      by_cases hlen : t.audioChunks.length > 0 <;>
        simp [handleRecorderStop, hlen, ht, hnext, hrec]
    obtain ⟨r1, r2, r3, r4⟩ := hres
    rw [r4]
    refine ⟨fun _ => r1, ?_, ?_, ?_, ?_, ?_⟩
    · intro sid
      rw [r2]
      simp only [List.mem_append, List.mem_singleton]
      constructor
      · intro hm
        rcases hm with hm | hm
        · exact (h2 sid).mp hm
        · cases hm
      · intro hm; exact Or.inl ((h2 sid).mpr hm)
    · intro sid hsid; rw [r1] at hsid; cases hsid
    · intro sid hsid _
      rw [r2] at hsid
      rw [countEv_append]
      by_cases hx : sid = sid0
      · subst hx
        rw [hcnt0]
        simp [countEv]
      · have hc : countEv (RecEvent.stopTracks sid) evs = 1 :=
          h4 sid hsid (by rw [hso]; intro he; exact hx (Option.some.inj he).symm)
        have hx' : ¬ (sid0 = sid) := fun he => hx he.symm
        rw [hc]
        simp [countEv, hx']
    · intro sid hsid
      rw [r2] at hsid
      have hc : countEv (RecEvent.stopTracks sid) evs = 0 := h5 sid hsid
      have hx' : ¬ (sid0 = sid) := by omega
      rw [countEv_append, hc]
      simp [countEv, hx']
    · intro habs; rw [r3] at habs; cases habs

theorem startRecording_recInv (s : RecState) (evs : List RecEvent) (env : StartEnv)
    (h : RecInv s evs) (hrec : s.isRecording = false) :
    RecInv (startRecording env s).1 (evs ++ (startRecording env s).2) := by
  obtain ⟨h1, h2, h3, h4, h5, h6⟩ := h
  have hstream : s.stream = none := h1 hrec
  cases hacq : env.acquireOk with
  | false =>
    have hres : (startRecording env s).1.stream = none ∧
        (startRecording env s).1.nextStreamId = s.nextStreamId ∧
        (startRecording env s).1.isRecording = false ∧
        (startRecording env s).2 = [] := by
      simp [startRecording, hstream, hacq]
    obtain ⟨r1, r2, r3, r4⟩ := hres
    rw [r4, List.append_nil]
    refine ⟨fun _ => r1, ?_, ?_, ?_, ?_, ?_⟩
    · intro sid; rw [r2]; exact h2 sid
    · intro sid hsid; rw [r1] at hsid; cases hsid
    · intro sid hsid _
      rw [r2] at hsid
      exact h4 sid hsid (by rw [hstream]; simp)
    · intro sid hsid; rw [r2] at hsid; exact h5 sid hsid
    · intro habs; rw [r3] at habs; cases habs
  | true =>
    cases hrok : env.recorderOk with
    | true =>
      have hres : (startRecording env s).1.stream = some s.nextStreamId ∧
          (startRecording env s).1.nextStreamId = s.nextStreamId + 1 ∧
          (startRecording env s).1.isRecording = true ∧
          (startRecording env s).1.mediaRecorder = some s.nextStreamId ∧
          (startRecording env s).2 = [RecEvent.acquire s.nextStreamId] := by
        simp [startRecording, hstream, hacq, hrok]
      obtain ⟨r1, r2, r3, rmr, r4⟩ := hres
      rw [r4]
      refine ⟨?_, ?_, ?_, ?_, ?_, ?_⟩
      · intro habs; rw [r3] at habs; cases habs
      · intro sid
        rw [r2]
        simp only [List.mem_append, List.mem_singleton]
        constructor
        · intro hm
          rcases hm with hm | hm
          · have := (h2 sid).mp hm; omega
          · have := RecEvent.acquire.inj hm; omega
        · intro hm
          by_cases hx : sid = s.nextStreamId
          · exact Or.inr (by rw [hx])
          · exact Or.inl ((h2 sid).mpr (by omega))
      · intro sid hsid
        rw [r1] at hsid
        have hx : sid = s.nextStreamId := (Option.some.inj hsid).symm
        refine ⟨by rw [r2]; omega, r3, ?_⟩
        have hc : countEv (RecEvent.stopTracks sid) evs = 0 := h5 sid (by omega)
        rw [countEv_append, hc]
        simp [countEv]
      · intro sid hsid hneq
        rw [r2] at hsid
        rw [r1] at hneq
        have hx : sid ≠ s.nextStreamId := fun he => hneq (by rw [he])
        have hc : countEv (RecEvent.stopTracks sid) evs = 1 :=
          h4 sid (by omega) (by rw [hstream]; simp)
        rw [countEv_append, hc]
        simp [countEv]
      · intro sid hsid
        rw [r2] at hsid
        have hc : countEv (RecEvent.stopTracks sid) evs = 0 := h5 sid (by omega)
        rw [countEv_append, hc]
        simp [countEv]
      · intro _; rw [rmr]; rfl
    | false =>
      have hres : (startRecording env s).1.stream = none ∧
          (startRecording env s).1.nextStreamId = s.nextStreamId + 1 ∧
          (startRecording env s).1.isRecording = false ∧
          (startRecording env s).2 =
            [RecEvent.acquire s.nextStreamId, RecEvent.stopTracks s.nextStreamId] := by
        simp [startRecording, hstream, hacq, hrok]
      obtain ⟨r1, r2, r3, r4⟩ := hres
      rw [r4]
      refine ⟨fun _ => r1, ?_, ?_, ?_, ?_, ?_⟩
      · intro sid
        rw [r2]
        simp only [List.mem_append, List.mem_cons, List.mem_singleton]
        constructor
        · intro hm
          rcases hm with hm | hm | hm | hm
          · have := (h2 sid).mp hm; omega
          · have := RecEvent.acquire.inj hm; omega
          · cases hm
          · cases hm
        · intro hm
          by_cases hx : sid = s.nextStreamId
          · exact Or.inr (Or.inl (by rw [hx]))
          · exact Or.inl ((h2 sid).mpr (by omega))
      · intro sid hsid; rw [r1] at hsid; cases hsid
      · intro sid hsid _
        rw [r2] at hsid
        rw [countEv_append]
        by_cases hx : sid = s.nextStreamId
        · have hc : countEv (RecEvent.stopTracks sid) evs = 0 := h5 sid (by omega)
          rw [hc]
          simp [countEv, hx]
        · have hc : countEv (RecEvent.stopTracks sid) evs = 1 :=
            h4 sid (by omega) (by rw [hstream]; simp)
          have hx' : ¬ (s.nextStreamId = sid) := fun he => hx he.symm
          rw [hc]
          simp [countEv, hx']
      · intro sid hsid
        rw [r2] at hsid
        have hc : countEv (RecEvent.stopTracks sid) evs = 0 := h5 sid (by omega)
        have hx' : ¬ (s.nextStreamId = sid) := by omega
        rw [countEv_append, hc]
        simp [countEv, hx']
      · intro habs; rw [r3] at habs; cases habs

theorem recStep_recInv (s : RecState) (evs : List RecEvent) (op : RecOp) (h : RecInv s evs) :
    RecInv (recStep s op).1 (evs ++ (recStep s op).2) := by
  cases op with
  | toggle env =>
    by_cases hrec : s.isRecording = true
    · have hmr : s.mediaRecorder.isSome = true := h.2.2.2.2.2 hrec
      have heq : recStep s (RecOp.toggle env) =
          ((handleRecorderStop
              { s with isRecording := false, recStatus := "Processing audio..." }).1,
           (handleRecorderStop
              { s with isRecording := false, recStatus := "Processing audio..." }).2.1) := by
        simp [recStep, stopRecording, hrec, hmr]
      rw [heq]
      exact handleRecorderStop_recInv s _ evs h rfl rfl rfl
    · have hrec' : s.isRecording = false := by revert hrec; cases s.isRecording <;> simp
      have heq : recStep s (RecOp.toggle env) = startRecording env s := by
        simp [recStep, hrec']
      rw [heq]
      exact startRecording_recInv s evs env h hrec'
  | data n =>
    obtain ⟨h1, h2, h3, h4, h5, h6⟩ := h
    have heq2 : (recStep s (RecOp.data n)).2 = [] := rfl
    rw [heq2, List.append_nil]
    by_cases hb : (s.isRecording && decide (n > 0)) = true
    · have heq : (recStep s (RecOp.data n)).1 =
          { s with audioChunks := s.audioChunks ++ [n] } := by
        simp only [recStep, hb, if_pos]
      rw [heq]
      exact ⟨h1, h2, h3, h4, h5, h6⟩
    · have heq : (recStep s (RecOp.data n)).1 = s := by
        simp only [recStep]
        rw [if_neg]
        simpa using hb
      rw [heq]
      exact ⟨h1, h2, h3, h4, h5, h6⟩
  | newNote =>
    by_cases hrec : s.isRecording = true
    · have hmr : s.mediaRecorder.isSome = true := h.2.2.2.2.2 hrec
      obtain ⟨rid, hrid⟩ := Option.isSome_iff_exists.mp hmr
      have heq : recStep s RecOp.newNote =
          ((handleRecorderStop { s with isRecording := false }).1,
           (handleRecorderStop { s with isRecording := false }).2.1) := by
        simp [recStep, newNoteTeardown, hrec, hrid]
      rw [heq]
      exact handleRecorderStop_recInv s _ evs h rfl rfl rfl
    · have hrec' : s.isRecording = false := by revert hrec; cases s.isRecording <;> simp
      have heq : recStep s RecOp.newNote = (s, []) := by
        simp [recStep, newNoteTeardown, hrec']
      rw [heq]
      simpa using h

theorem runRecFrom_inv :
    ∀ (ops : List RecOp) (s : RecState) (evs : List RecEvent), RecInv s evs →
      RecInv (runRecFrom s evs ops).1 (runRecFrom s evs ops).2 := by
  intro ops
  induction ops with
  | nil => intro s evs h; exact h
  | cons op rest ih =>
    intro s evs h
    exact ih (recStep s op).1 (evs ++ (recStep s op).2) (recStep_recInv s evs op h)

theorem runRec_inv (ops : List RecOp) : RecInv (runRec ops).1 (runRec ops).2 :=
  runRecFrom_inv ops initRecState [] recInv_init

theorem runRecFrom_append :
    ∀ (ops1 ops2 : List RecOp) (s : RecState) (evs : List RecEvent),
      runRecFrom s evs (ops1 ++ ops2) =
        runRecFrom (runRecFrom s evs ops1).1 (runRecFrom s evs ops1).2 ops2 := by
  intro ops1
  induction ops1 with
  | nil => intro ops2 s evs; rfl
  | cons op rest ih => intro ops2 s evs; exact ih ops2 _ _

/-- C7: over every sequence of user interactions, each acquired stream has
its tracks stopped at most once (no double-release); each acquired stream is
either the one currently held or has been released exactly once (no leak);
and the currently held stream is released exactly once by the next teardown
(here a new-note request) — so every non-failing start is eventually
followed by exactly one release. -/
theorem stream_released_exactly_once (ops : List RecOp) :
    (∀ sid, countEv (RecEvent.stopTracks sid) (runRec ops).2 ≤ 1) ∧
    (∀ sid, RecEvent.acquire sid ∈ (runRec ops).2 →
        (runRec ops).1.stream = some sid ∨
          countEv (RecEvent.stopTracks sid) (runRec ops).2 = 1) ∧
    (∀ sid, (runRec ops).1.stream = some sid →
        countEv (RecEvent.stopTracks sid) (runRec (ops ++ [RecOp.newNote])).2 = 1) := by
  obtain ⟨h1, h2, h3, h4, h5, h6⟩ := runRec_inv ops
  refine ⟨?_, ?_, ?_⟩
  · intro sid
    by_cases hs : (runRec ops).1.stream = some sid
    · have := (h3 sid hs).2.2; omega
    · by_cases hlt : sid < (runRec ops).1.nextStreamId
      · have := h4 sid hlt hs; omega
      · have := h5 sid (by omega); omega
  · intro sid hm
    have hlt : sid < (runRec ops).1.nextStreamId := (h2 sid).mp hm
    by_cases hs : (runRec ops).1.stream = some sid
    · exact Or.inl hs
    · exact Or.inr (h4 sid hlt hs)
  · intro sid hs
    have hrec : (runRec ops).1.isRecording = true := (h3 sid hs).2.1
    have hcnt : countEv (RecEvent.stopTracks sid) (runRec ops).2 = 0 := (h3 sid hs).2.2
    have hmr : (runRec ops).1.mediaRecorder.isSome = true := h6 hrec
    obtain ⟨rid, hrid⟩ := Option.isSome_iff_exists.mp hmr
    have happ : (runRec (ops ++ [RecOp.newNote])).2 =
        (runRec ops).2 ++ (recStep (runRec ops).1 RecOp.newNote).2 := by
      unfold runRec
      rw [runRecFrom_append]
      rfl
    have hev : (recStep (runRec ops).1 RecOp.newNote).2 = [RecEvent.stopTracks sid] := by
      by_cases hlen : (runRec ops).1.audioChunks.length > 0 <;>
        simp [recStep, newNoteTeardown, handleRecorderStop, hrec, hrid, hlen, hs]
    rw [happ, countEv_append, hcnt, hev]
    simp [countEv]

theorem stream_released_exactly_once_holds :
    countEv (RecEvent.stopTracks 0) (runRec [RecOp.toggle envOk]).2 ≤ 1 ∧
    ((runRec [RecOp.toggle envOk]).1.stream = some 0 ∨
      countEv (RecEvent.stopTracks 0) (runRec [RecOp.toggle envOk]).2 = 1) ∧
    countEv (RecEvent.stopTracks 0)
      (runRec ([RecOp.toggle envOk] ++ [RecOp.newNote])).2 = 1 := by
  have h := stream_released_exactly_once [RecOp.toggle envOk]
  exact ⟨h.1 0, h.2.1 0 (by decide), h.2.2 0 (by decide)⟩

end GeminiAudio
